import Mathlib

/-!
Verification of the SiteBlocker session controller (src/siteblocker.py).

The shallow embedding below translates the pure line-transformation logic of
the Python source into Lean functions:

* `remove_blocker_entries` / `add_blocker_entries` mirror the methods of the
  same names (lines 88-118 of the source); Python's substring test
  `MARKER_START in line` is modelled by `lineContains`.
* `readlines` models Python's `file.readlines()` (each line keeps its
  trailing newline; a final unterminated line is returned without one) and
  `writeLines` models `file.writelines()` (plain concatenation).
* `format_duration`, `get_active_duration`, `activate`, `deactivate`,
  `run_interactive_interrupted`, `statusReport` and `mainRun` model the
  remaining methods and `main`.  File-system state (hosts content, lock
  file, permissions) is carried in an explicit `World` record; printed
  messages are collected in lists; `sys.exit(code)` is the `ProcStep.exit`
  constructor.  Wall-clock time and ISO-8601 parsing are parameters
  (`now`, `nowIso`, `parse`), since they come from the `datetime` library.
  Dynamic parts of some error messages (exception text, file paths) are
  elided; durations are modelled as whole seconds.
-/

/-- Start marker constant, `MARKER_START` in the source. -/
def MARKER_START : String := "# SiteBlocker START"

/-- End marker constant, `MARKER_END` in the source. -/
def MARKER_END : String := "# SiteBlocker END"

/-- Does `p` match at the front of `l`?  Helper for substring containment. -/
def matchesAt : List Char → List Char → Bool
  | [], _ => true
  | _ :: _, [] => false
  | p :: ps, c :: cs => p == c && matchesAt ps cs

/-- Does `p` occur as a contiguous substring of `l`?  (Checked at every
position, including the empty tail, as in Python's `p in l`.) -/
def hasSub (p : List Char) : List Char → Bool
  | [] => matchesAt p []
  | c :: cs => matchesAt p (c :: cs) || hasSub p cs

/-- Python's `pat in line` on strings: substring containment. -/
def lineContains (pat line : String) : Bool := hasSub pat.data line.data

/-- Loop body of `remove_blocker_entries` (source lines 93-101): scan with an
`in_blocker_section` flag; a line containing the start marker sets the flag
and is dropped, a line containing the end marker clears it and is dropped,
lines seen while the flag is set are dropped, all others are kept. -/
def removeLoop : List String → Bool → List String
  | [], _ => []
  | line :: rest, inside =>
    if lineContains MARKER_START line then removeLoop rest true
    else if lineContains MARKER_END line then removeLoop rest false
    else if inside then removeLoop rest inside
    else line :: removeLoop rest false

/-- `SiteBlocker.remove_blocker_entries` (source lines 88-103). -/
def remove_blocker_entries (lines : List String) : List String :=
  removeLoop lines false

/-- Configuration dictionary: the two keys read from `config.json`.
`none` models an absent key. -/
structure Config where
  redirect_ip : Option String
  blocklist : Option (List String)
  deriving DecidableEq

/-- `config.get("redirect_ip", "127.0.0.1")` (source line 112). -/
def Config.redirectIp (c : Config) : String := c.redirect_ip.getD "127.0.0.1"

/-- `config.get("blocklist", [])` (source lines 114, 139, 166). -/
def Config.blockDomains (c : Config) : List String := c.blocklist.getD []

/-- One generated entry, `f"{redirect_ip} {domain}\n"` (source line 115). -/
def domainLine (ip d : String) : String := ip ++ " " ++ d ++ "\n"

/-- `SiteBlocker.add_blocker_entries` (source lines 105-118): remove existing
entries, then append `f"\n{MARKER_START}\n"`, one line per configured
domain, and `f"{MARKER_END}\n"`. -/
def add_blocker_entries (cfg : Config) (lines : List String) : List String :=
  remove_blocker_entries lines
    ++ ["\n" ++ (MARKER_START ++ "\n")]
    ++ cfg.blockDomains.map (domainLine cfg.redirectIp)
    ++ [MARKER_END ++ "\n"]

/-- Accumulator-based splitter behind `readlines`. -/
def splitAux : List Char → List Char → List String
  | [], acc => if acc.isEmpty then [] else [String.mk acc.reverse]
  | c :: cs, acc =>
    if c = '\n' then String.mk (c :: acc).reverse :: splitAux cs []
    else splitAux cs (c :: acc)

/-- Python's `file.readlines()` on a file holding `s`: split into lines, each
keeping its trailing newline; a final chunk without a newline is one line. -/
def readlines (s : String) : List String := splitAux s.data []

/-- Python's `file.writelines(lines)`: plain concatenation. -/
def writeLines : List String → String
  | [] => ""
  | l :: ls => l ++ writeLines ls

/-- `SiteBlocker.format_duration` (source lines 57-68) on whole seconds;
the divisions and remainders spell out Python's `divmod`. -/
def format_duration (totalSeconds : Int) : String :=
  if totalSeconds / 3600 > 0 then
    toString (totalSeconds / 3600) ++ "h " ++ toString (totalSeconds % 3600 / 60)
      ++ "m " ++ toString (totalSeconds % 3600 % 60) ++ "s"
  else if totalSeconds % 3600 / 60 > 0 then
    toString (totalSeconds % 3600 / 60) ++ "m " ++ toString (totalSeconds % 3600 % 60) ++ "s"
  else
    toString (totalSeconds % 3600 % 60) ++ "s"

/-- Process-visible state: the loaded configuration, whether the invoking
user may read/write `/etc/hosts`, the hosts file content, and the lock file
(`none` when absent, `some content` when present). -/
structure World where
  cfg : Config
  hostsPerm : Bool
  hosts : String
  lock : Option String
  deriving DecidableEq

/-- `SiteBlocker.is_active` (source lines 39-41): the lock file exists. -/
def is_active (w : World) : Bool := w.lock.isSome

/-- `SiteBlocker.get_active_duration` (source lines 43-55).  `parse` models
`datetime.fromisoformat` (returning the start instant in seconds, `none` on
failure) and `now` models `datetime.now()`; the result pairs the duration in
seconds with any printed error line (the exception text is elided). -/
def get_active_duration (parse : String → Option Int) (now : Int)
    (w : World) : Int × List String :=
  match w.lock with
  | none => (0, [])
  | some content =>
    match parse content.trim with
    | some start => (now - start, [])
    | none => (0, ["Error reading lock file"])

/-- Outcome of a modelled call: `exit code msgs w` models `sys.exit(code)`
after printing `msgs` with file state `w`; `done` is a normal return. -/
inductive ProcStep where
  | exit (code : Nat) (msgs : List String) (w : World)
  | done (msgs : List String) (w : World)
  deriving DecidableEq

/-- `SiteBlocker.activate` (source lines 120-140).  When already active it
only reports; otherwise it writes the lock file with `nowIso` (the
`datetime.now().isoformat()` string), then reads, rewrites and writes the
hosts file — `read_hosts`/`write_hosts` call `sys.exit(1)` on a permission
error, and the lock has already been written at that point. -/
def activate (parse : String → Option Int) (now : Int) (nowIso : String)
    (w : World) : ProcStep :=
  if (is_active w) = true then
    let d := get_active_duration parse now w
    .done (d.2 ++ ["SiteBlocker is already active (running for "
      ++ format_duration d.1 ++ ")"]) w
  else
    let w1 : World := { w with lock := some nowIso }
    if w1.hostsPerm = true then
      .done ["Activating SiteBlocker...", "✓ SiteBlocker activated!",
          "Blocking " ++ toString w1.cfg.blockDomains.length ++ " domains",
          "\nPress Ctrl+C to deactivate"]
        { w1 with hosts := writeLines (add_blocker_entries w1.cfg (readlines w1.hosts)) }
    else
      .exit 1 ["Activating SiteBlocker...",
        "Error: Need sudo privileges to modify /etc/hosts"] w1

/-- `SiteBlocker.deactivate` (source lines 142-160). -/
def deactivate (parse : String → Option Int) (now : Int) (w : World) : ProcStep :=
  if (is_active w) = false then
    .done ["SiteBlocker is not active"] w
  else
    let d := get_active_duration parse now w
    if w.hostsPerm = true then
      .done (d.2 ++ ["Deactivating SiteBlocker (was active for "
          ++ format_duration d.1 ++ ")...", "✓ SiteBlocker deactivated!"])
        { w with hosts := writeLines (remove_blocker_entries (readlines w.hosts)),
                 lock := none }
    else
      .exit 1 (d.2 ++ ["Deactivating SiteBlocker (was active for "
        ++ format_duration d.1 ++ ")...",
        "Error: Need sudo privileges to modify /etc/hosts"]) w

/-- `SiteBlocker.status` (source lines 162-171): the lines it prints. -/
def statusReport (parse : String → Option Int) (now : Int) (w : World) : List String :=
  if (is_active w) = true then
    let d := get_active_duration parse now w
    d.2 ++ ["SiteBlocker is ACTIVE", "Duration: " ++ format_duration d.1,
      "Blocking " ++ toString w.cfg.blockDomains.length ++ " domains"]
  else ["SiteBlocker is INACTIVE"]

/-- `SiteBlocker.run_interactive` (source lines 173-197) at the moment the
foreground loop is interrupted.  The loop body only reads the clock and
prints, so the file state when SIGINT/SIGTERM (or `KeyboardInterrupt`)
arrives is the state at entry; the installed handler prints, runs the full
`deactivate`, and calls `sys.exit(0)` (a `sys.exit(1)` raised inside
`deactivate` propagates instead).  When the blocker is not active the
function returns before installing handlers. -/
def run_interactive_interrupted (parse : String → Option Int) (now : Int)
    (w : World) : ProcStep :=
  if (is_active w) = false then
    .done ["SiteBlocker is not active. Use 'activate' command first."] w
  else
    match deactivate parse now w with
    | .done m w1 => .exit 0 ("\n\nDeactivating..." :: m) w1
    | .exit c m w1 => .exit c ("\n\nDeactivating..." :: m) w1

/-- Python's `str.lower()`, character by character. -/
def strToLower (s : String) : String := String.mk (s.data.map Char.toLower)

/-- Usage help printed by `main` when no command is given (source 204-209). -/
def usageMsgs : List String :=
  ["Usage: siteblocker <command>", "Commands:",
   "  activate   - Activate the site blocker",
   "  deactivate - Deactivate the site blocker",
   "  status     - Show current status",
   "  run        - Run interactive mode with timer"]

/-- `main` (source lines 200-226) run to process exit, returning the exit
code, the printed lines and the final file state.  `cfgPresent` models the
existence of `config.json`, checked by the `SiteBlocker` constructor before
the argument count; for the `activate` command the interactive loop that
follows is modelled by `run_interactive_interrupted`. -/
def mainRun (parse : String → Option Int) (now : Int) (nowIso : String)
    (cfgPresent : Bool) (argv : List String) (w : World) :
    Nat × List String × World :=
  if cfgPresent = false then (1, ["Error: Config file not found"], w)
  else if argv.length < 2 then (1, usageMsgs, w)
  else
    let command := strToLower (argv.getD 1 "")
    if command = "activate" then
      match activate parse now nowIso w with
      | .exit c m w1 => (c, m, w1)
      | .done m w1 =>
        match run_interactive_interrupted parse now w1 with
        | .exit c m2 w2 => (c, m ++ m2, w2)
        | .done m2 w2 => (0, m ++ m2, w2)
    else if command = "deactivate" then
      match deactivate parse now w with
      | .exit c m w1 => (c, m, w1)
      | .done m w1 => (0, m, w1)
    else if command = "status" then (0, statusReport parse now w, w)
    else if command = "run" then
      match run_interactive_interrupted parse now w with
      | .exit c m w1 => (c, m, w1)
      | .done m w1 => (0, m, w1)
    else (1, ["Unknown command: " ++ command], w)

/-- The command sequence `activate` then `deactivate` (two process runs over
the same file state; an exit during the first run stops the sequence). -/
def activateThenDeactivate (parse : String → Option Int) (now : Int)
    (nowIso : String) (w : World) : ProcStep :=
  match activate parse now nowIso w with
  | .exit c m w1 => .exit c m w1
  | .done m w1 =>
    match deactivate parse now w1 with
    | .exit c m2 w2 => .exit c (m ++ m2) w2
    | .done m2 w2 => .done (m ++ m2) w2

/-- A line neither containing the start marker nor the end marker. -/
def markerFree (l : String) : Prop :=
  lineContains MARKER_START l = false ∧ lineContains MARKER_END l = false

/-- A well-formed text line: ends with a newline and has no interior one. -/
def wfLine (l : String) : Prop := ∃ u, l.data = u ++ ['\n'] ∧ '\n' ∉ u

/-- Does the character list end with a newline? -/
def endsNL : List Char → Bool
  | [] => false
  | [c] => c == '\n'
  | _ :: c :: cs => endsNL (c :: cs)

/-- State of the `in_blocker_section` flag after scanning `ls` from `b`. -/
def flagAfter : List String → Bool → Bool
  | [], b => b
  | l :: ls, b =>
    flagAfter ls
      (if lineContains MARKER_START l then true
       else if lineContains MARKER_END l then false else b)

/-- Stated from the spec's words, for comparison with the code: the same
scan, but a line triggers the markers only when it matches the exact marker
text (with or without its trailing newline), not on mere containment. -/
def removeLoopExactSpec : List String → Bool → List String
  | [], _ => []
  | line :: rest, inside =>
    if line == MARKER_START || line == MARKER_START ++ "\n" then
      removeLoopExactSpec rest true
    else if line == MARKER_END || line == MARKER_END ++ "\n" then
      removeLoopExactSpec rest false
    else if inside then removeLoopExactSpec rest inside
    else line :: removeLoopExactSpec rest false

/-- Spec-worded removal pass built on exact marker-line matching. -/
def remove_blocker_entries_exactSpec (lines : List String) : List String :=
  removeLoopExactSpec lines false

theorem writeLines_append (a b : List String) :
    writeLines (a ++ b) = writeLines a ++ writeLines b := by
  induction a with
  | nil => simp [writeLines, String.empty_append]
  | cons l ls ih => simp [writeLines, ih, String.append_assoc]

theorem splitAux_newline (u : List Char) (hu : '\n' ∉ u) (acc t : List Char) :
    splitAux (u ++ '\n' :: t) acc =
      String.mk (acc.reverse ++ (u ++ ['\n'])) :: splitAux t [] := by
  induction u generalizing acc with
  | nil => simp [splitAux]
  | cons c u ih =>
    have hc : ¬ c = '\n' := fun h => hu (h ▸ List.mem_cons_self c u)
    have hu2 : '\n' ∉ u := fun h => hu (List.mem_cons_of_mem c h)
    simp [splitAux, hc, ih hu2 (c :: acc)]

theorem readlines_cons (l : String) (hl : wfLine l) (rest : String) :
    readlines (l ++ rest) = l :: readlines rest := by
  obtain ⟨u, hd, hn⟩ := hl
  have : (l ++ rest).data = u ++ '\n' :: rest.data := by
    rw [String.data_append, hd]; simp
  unfold readlines
  rw [this, splitAux_newline u hn [] rest.data]
  simp [← hd]

theorem readlines_single (l : String) (hl : wfLine l) : readlines l = [l] := by
  obtain ⟨u, hd, hn⟩ := hl
  unfold readlines
  rw [hd, show u ++ ['\n'] = u ++ '\n' :: [] from rfl,
    splitAux_newline u hn [] []]
  simp [splitAux, ← hd]

theorem readlines_writeLines_append (ls : List String)
    (h : ∀ x ∈ ls, wfLine x) (t : String) :
    readlines (writeLines ls ++ t) = ls ++ readlines t := by
  induction ls with
  | nil => simp [writeLines, String.empty_append]
  | cons l ls ih =>
    have h1 : wfLine l := h l (List.mem_cons_self l ls)
    have h2 : ∀ x ∈ ls, wfLine x := fun x hx => h x (List.mem_cons_of_mem l hx)
    rw [show writeLines (l :: ls) = l ++ writeLines ls from rfl,
      String.append_assoc, readlines_cons l h1, ih h2]
    rfl

theorem mem_splitAux_wf (cs : List Char) (acc : List Char)
    (hend : endsNL cs = true) (hacc : '\n' ∉ acc) :
    ∀ l ∈ splitAux cs acc, wfLine l := by
  induction cs generalizing acc with
  | nil => simp [endsNL] at hend
  | cons c cs ih =>
    cases cs with
    | nil =>
      have hc : c = '\n' := by simpa [endsNL] using hend
      subst hc
      intro l hl
      simp [splitAux] at hl
      subst hl
      exact ⟨acc.reverse, by simp, by simpa using hacc⟩
    | cons c2 cs2 =>
      have hend2 : endsNL (c2 :: cs2) = true := by simpa [endsNL] using hend
      intro l hl
      by_cases hc : c = '\n'
      · subst hc
        simp [splitAux] at hl
        rcases hl with hl | hl
        · subst hl
          exact ⟨acc.reverse, by simp, by simpa using hacc⟩
        · exact ih [] hend2 (by simp) l hl
      · have hacc2 : '\n' ∉ c :: acc := by
          intro hmem
          rcases List.mem_cons.mp hmem with h | h
          · exact hc h.symm
          · exact hacc h
        refine ih (c :: acc) hend2 hacc2 l ?_
        simpa [splitAux, hc] using hl

theorem mem_readlines_wf (s : String) (hend : endsNL s.data = true) :
    ∀ l ∈ readlines s, wfLine l :=
  mem_splitAux_wf s.data [] hend (by simp)

theorem removeLoop_append (xs ys : List String) (b : Bool) :
    removeLoop (xs ++ ys) b = removeLoop xs b ++ removeLoop ys (flagAfter xs b) := by
  induction xs generalizing b with
  | nil => simp [removeLoop, flagAfter]
  | cons l ls ih =>
    by_cases h1 : lineContains MARKER_START l
    · simp [removeLoop, flagAfter, h1, ih]
    · by_cases h2 : lineContains MARKER_END l
      · simp [removeLoop, flagAfter, h1, h2, ih]
      · cases b with
        | true => simp [removeLoop, flagAfter, h1, h2, ih]
        | false => simp [removeLoop, flagAfter, h1, h2, ih]

theorem removeLoop_sublist (ls : List String) (b : Bool) :
    (removeLoop ls b).Sublist ls := by
  induction ls generalizing b with
  | nil => simp [removeLoop]
  | cons l ls ih =>
    by_cases h1 : lineContains MARKER_START l
    · simpa [removeLoop, h1] using (ih true).cons l
    · by_cases h2 : lineContains MARKER_END l
      · simpa [removeLoop, h1, h2] using (ih false).cons l
      · cases b with
        | true => simpa [removeLoop, h1, h2] using (ih true).cons l
        | false => simpa [removeLoop, h1, h2] using (ih false).cons₂ l

theorem removeLoop_markerFree (ls : List String) (b : Bool) :
    ∀ l ∈ removeLoop ls b, markerFree l := by
  induction ls generalizing b with
  | nil => simp [removeLoop]
  | cons l ls ih =>
    intro x hx
    by_cases h1 : lineContains MARKER_START l
    · exact ih true x (by simpa [removeLoop, h1] using hx)
    · by_cases h2 : lineContains MARKER_END l
      · exact ih false x (by simpa [removeLoop, h1, h2] using hx)
      · cases b with
        | true => exact ih true x (by simpa [removeLoop, h1, h2] using hx)
        | false =>
          rcases (by simpa [removeLoop, h1, h2] using hx :
              x = l ∨ x ∈ removeLoop ls false) with h | h
          · subst h
            exact ⟨by simpa using h1, by simpa using h2⟩
          · exact ih false x h

theorem flagAfter_of_markerFree (xs : List String) (h : ∀ x ∈ xs, markerFree x)
    (b : Bool) : flagAfter xs b = b := by
  induction xs with
  | nil => rfl
  | cons l ls ih =>
    obtain ⟨h1, h2⟩ := h l (List.mem_cons_self l ls)
    rw [show flagAfter (l :: ls) b =
      flagAfter ls (if lineContains MARKER_START l then true
        else if lineContains MARKER_END l then false else b) from rfl]
    rw [h1, h2]
    simp only [Bool.false_eq_true, if_false]
    exact ih (fun x hx => h x (List.mem_cons_of_mem l hx))

theorem removeLoop_of_markerFree (xs : List String)
    (h : ∀ x ∈ xs, markerFree x) : removeLoop xs false = xs := by
  induction xs with
  | nil => rfl
  | cons l ls ih =>
    obtain ⟨h1, h2⟩ := h l (List.mem_cons_self l ls)
    simp [removeLoop, h1, h2, ih (fun x hx => h x (List.mem_cons_of_mem l hx))]

theorem removeLoop_dropInside (zs : List String)
    (h : ∀ z ∈ zs, lineContains MARKER_END z = false) (ys : List String) :
    removeLoop (zs ++ ys) true = removeLoop ys true := by
  induction zs with
  | nil => rfl
  | cons z zs ih =>
    have h1 := h z (List.mem_cons_self z zs)
    have ih2 := ih (fun x hx => h x (List.mem_cons_of_mem z hx))
    by_cases hs : lineContains MARKER_START z
    · simpa [removeLoop, hs] using ih2
    · simpa [removeLoop, hs, h1] using ih2

theorem wf_newline : wfLine "\n" := ⟨[], rfl, by simp⟩

theorem wf_marker_start_line : wfLine (MARKER_START ++ "\n") :=
  ⟨MARKER_START.data, by rw [String.data_append], by decide⟩

theorem wf_marker_end_line : wfLine (MARKER_END ++ "\n") :=
  ⟨MARKER_END.data, by rw [String.data_append], by decide⟩

theorem wf_domainLine (R d : String) (h : '\n' ∉ (R ++ " " ++ d).data) :
    wfLine (domainLine R d) :=
  ⟨(R ++ " " ++ d).data, by rw [domainLine, String.data_append], h⟩

theorem activate_of_inactive (parse : String → Option Int) (now : Int)
    (nowIso : String) (w : World) (hlock : w.lock = none)
    (hperm : w.hostsPerm = true) :
    activate parse now nowIso w =
      .done ["Activating SiteBlocker...", "✓ SiteBlocker activated!",
          "Blocking " ++ toString w.cfg.blockDomains.length ++ " domains",
          "\nPress Ctrl+C to deactivate"]
        { w with lock := some nowIso,
                 hosts := writeLines (add_blocker_entries w.cfg (readlines w.hosts)) } := by
  simp [activate, is_active, hlock, hperm]

theorem activate_of_active (parse : String → Option Int) (now : Int)
    (nowIso : String) (w : World) (hlock : is_active w = true) :
    activate parse now nowIso w =
      .done ((get_active_duration parse now w).2 ++
        ["SiteBlocker is already active (running for "
          ++ format_duration (get_active_duration parse now w).1 ++ ")"]) w := by
  simp [activate, hlock]

theorem activate_of_noperm (parse : String → Option Int) (now : Int)
    (nowIso : String) (w : World) (hlock : w.lock = none)
    (hperm : w.hostsPerm = false) :
    activate parse now nowIso w =
      .exit 1 ["Activating SiteBlocker...",
        "Error: Need sudo privileges to modify /etc/hosts"]
        { w with lock := some nowIso } := by
  simp [activate, is_active, hlock, hperm]

theorem deactivate_of_inactive (parse : String → Option Int) (now : Int)
    (w : World) (hlock : w.lock = none) :
    deactivate parse now w = .done ["SiteBlocker is not active"] w := by
  simp [deactivate, is_active, hlock]

theorem deactivate_of_active (parse : String → Option Int) (now : Int)
    (w : World) (hlock : is_active w = true) (hperm : w.hostsPerm = true) :
    deactivate parse now w =
      .done ((get_active_duration parse now w).2 ++
          ["Deactivating SiteBlocker (was active for "
            ++ format_duration (get_active_duration parse now w).1 ++ ")...",
           "✓ SiteBlocker deactivated!"])
        { w with hosts := writeLines (remove_blocker_entries (readlines w.hosts)),
                 lock := none } := by
  simp [deactivate, hlock, hperm]

theorem deactivate_of_noperm (parse : String → Option Int) (now : Int)
    (w : World) (hlock : is_active w = true) (hperm : w.hostsPerm = false) :
    deactivate parse now w =
      .exit 1 ((get_active_duration parse now w).2 ++
        ["Deactivating SiteBlocker (was active for "
          ++ format_duration (get_active_duration parse now w).1 ++ ")...",
         "Error: Need sudo privileges to modify /etc/hosts"]) w := by
  simp [deactivate, hlock, hperm]

theorem run_int_of_active (parse : String → Option Int) (now : Int)
    (w : World) (hlock : is_active w = true) (hperm : w.hostsPerm = true) :
    run_interactive_interrupted parse now w =
      .exit 0 ("\n\nDeactivating..." :: ((get_active_duration parse now w).2 ++
          ["Deactivating SiteBlocker (was active for "
            ++ format_duration (get_active_duration parse now w).1 ++ ")...",
           "✓ SiteBlocker deactivated!"]))
        { w with hosts := writeLines (remove_blocker_entries (readlines w.hosts)),
                 lock := none } := by
  rw [run_interactive_interrupted, deactivate_of_active parse now w hlock hperm]
  simp [hlock]

theorem run_int_of_active_noperm (parse : String → Option Int) (now : Int)
    (w : World) (hlock : is_active w = true) (hperm : w.hostsPerm = false) :
    run_interactive_interrupted parse now w =
      .exit 1 ("\n\nDeactivating..." :: ((get_active_duration parse now w).2 ++
        ["Deactivating SiteBlocker (was active for "
          ++ format_duration (get_active_duration parse now w).1 ++ ")...",
         "Error: Need sudo privileges to modify /etc/hosts"])) w := by
  rw [run_interactive_interrupted, deactivate_of_noperm parse now w hlock hperm]
  simp [hlock]

theorem run_int_of_inactive (parse : String → Option Int) (now : Int)
    (w : World) (hlock : w.lock = none) :
    run_interactive_interrupted parse now w =
      .done ["SiteBlocker is not active. Use 'activate' command first."] w := by
  simp [run_interactive_interrupted, is_active, hlock]

theorem readlines_empty : readlines "" = [] := rfl

theorem matchesAt_concat (p l : List Char) (c : Char)
    (h : matchesAt p (l ++ [c]) = true) : matchesAt p l = true ∨ c ∈ p := by
  induction p generalizing l with
  | nil => left; rfl
  | cons p0 ps ih =>
    cases l with
    | nil =>
      right
      simp only [List.nil_append, matchesAt, Bool.and_eq_true, beq_iff_eq] at h
      rw [h.1]
      exact List.mem_cons_self c ps
    | cons a l2 =>
      simp only [List.cons_append, matchesAt, Bool.and_eq_true, beq_iff_eq] at h
      rcases ih l2 h.2 with hm | hm
      · left
        simp [matchesAt, h.1, hm]
      · right
        exact List.mem_cons_of_mem p0 hm

theorem hasSub_concat (p u : List Char) (c : Char)
    (h : hasSub p (u ++ [c]) = true) : hasSub p u = true ∨ c ∈ p := by
  induction u with
  | nil =>
    simp only [List.nil_append, hasSub, Bool.or_eq_true] at h
    rcases h with h | h
    · rcases matchesAt_concat p [] c (by simpa using h) with hm | hm
      · left
        simpa [hasSub] using hm
      · right
        exact hm
    · left
      simpa [hasSub] using h
  | cons a u2 ih =>
    simp only [List.cons_append, hasSub, Bool.or_eq_true] at h
    rcases h with h | h
    · rcases matchesAt_concat p (a :: u2) c h with hm | hm
      · left
        simp [hasSub, hm]
      · right
        exact hm
    · rcases ih h with hm | hm
      · left
        simp [hasSub, hm]
      · right
        exact hm

theorem lineContains_append_newline (M b : String) (hM : '\n' ∉ M.data)
    (h : lineContains M b = false) : lineContains M (b ++ "\n") = false := by
  by_contra hx
  rw [Bool.not_eq_false, lineContains, String.data_append,
    show ("\n" : String).data = ['\n'] from rfl] at hx
  rcases hasSub_concat M.data b.data '\n' hx with hm | hm
  · rw [lineContains] at h
    rw [h] at hm
    exact Bool.false_ne_true hm
  · exact hM hm

theorem markerFree_append_newline (b : String) (h : markerFree b) :
    markerFree (b ++ "\n") :=
  ⟨lineContains_append_newline MARKER_START b (by decide) h.1,
   lineContains_append_newline MARKER_END b (by decide) h.2⟩

theorem splitAux_shape (cs : List Char) (acc : List Char) (hacc : '\n' ∉ acc) :
    (∀ l ∈ splitAux cs acc, wfLine l) ∨
    ∃ ws b, splitAux cs acc = ws ++ [b] ∧ (∀ l ∈ ws, wfLine l) ∧ '\n' ∉ b.data := by
  induction cs generalizing acc with
  | nil =>
    cases acc with
    | nil =>
      left
      intro l hl
      simp [splitAux] at hl
    | cons a as =>
      right
      refine ⟨[], String.mk ((a :: as).reverse), by simp [splitAux], by simp, ?_⟩
      intro hmem
      exact hacc (List.mem_reverse.mp hmem)
  | cons c cs2 ih =>
    by_cases hc : c = '\n'
    · subst hc
      have hstep : splitAux ('\n' :: cs2) acc
          = String.mk (acc.reverse ++ ['\n']) :: splitAux cs2 [] := by
        simp [splitAux]
      have hwfhead : wfLine (String.mk (acc.reverse ++ ['\n'])) :=
        ⟨acc.reverse, rfl, by simpa using hacc⟩
      rcases ih [] (by simp) with hL | ⟨ws, b, heq, hws, hb⟩
      · left
        intro l hl
        rw [hstep] at hl
        rcases List.mem_cons.mp hl with hl | hl
        · rw [hl]
          exact hwfhead
        · exact hL l hl
      · right
        refine ⟨String.mk (acc.reverse ++ ['\n']) :: ws, b, ?_, ?_, hb⟩
        · rw [hstep, heq]
          rfl
        · intro l hl
          rcases List.mem_cons.mp hl with hl | hl
          · rw [hl]
            exact hwfhead
          · exact hws l hl
    · have hacc2 : '\n' ∉ c :: acc := by
        intro hmem
        rcases List.mem_cons.mp hmem with h | h
        · exact hc h.symm
        · exact hacc h
      have hstep : splitAux (c :: cs2) acc = splitAux cs2 (c :: acc) := by
        simp [splitAux, hc]
      rw [hstep]
      exact ih (c :: acc) hacc2

theorem strip_appended_block (cfg : Config) (pre : List String)
    (hwf : ∀ x ∈ pre, wfLine x) (hmf : ∀ x ∈ pre, markerFree x)
    (hdom : ∀ d ∈ cfg.blockDomains,
      lineContains MARKER_END (domainLine cfg.redirectIp d) = false ∧
      '\n' ∉ (cfg.redirectIp ++ " " ++ d).data) :
    writeLines (remove_blocker_entries (readlines (writeLines pre ++
        ((MARKER_START ++ "\n") ++
          (writeLines (cfg.blockDomains.map (domainLine cfg.redirectIp)) ++
            (MARKER_END ++ "\n"))))))
      = writeLines pre := by
  have hdomwf : ∀ x ∈ cfg.blockDomains.map (domainLine cfg.redirectIp), wfLine x := by
    intro x hx
    obtain ⟨d, hd, rfl⟩ := List.mem_map.mp hx
    exact wf_domainLine cfg.redirectIp d (hdom d hd).2
  have hsplit : readlines (writeLines pre ++
        ((MARKER_START ++ "\n") ++
          (writeLines (cfg.blockDomains.map (domainLine cfg.redirectIp)) ++
            (MARKER_END ++ "\n"))))
      = pre ++ ((MARKER_START ++ "\n") ::
          (cfg.blockDomains.map (domainLine cfg.redirectIp) ++ [MARKER_END ++ "\n"])) := by
    rw [readlines_writeLines_append _ hwf,
      readlines_cons (MARKER_START ++ "\n") wf_marker_start_line,
      readlines_writeLines_append _ hdomwf,
      readlines_single (MARKER_END ++ "\n") wf_marker_end_line]
  rw [hsplit, remove_blocker_entries, removeLoop_append,
    flagAfter_of_markerFree _ hmf, removeLoop_of_markerFree _ hmf]
  have h3 : lineContains MARKER_START (MARKER_START ++ "\n") = true := by decide
  have h4 : lineContains MARKER_START (MARKER_END ++ "\n") = false := by decide
  have h5 : lineContains MARKER_END (MARKER_END ++ "\n") = true := by decide
  have hdrop : removeLoop
      (cfg.blockDomains.map (domainLine cfg.redirectIp) ++ [MARKER_END ++ "\n"]) true
      = [] := by
    rw [removeLoop_dropInside _ (by
      intro z hz
      obtain ⟨d, hd, rfl⟩ := List.mem_map.mp hz
      exact (hdom d hd).1)]
    simp [removeLoop, h4, h5]
  rw [show removeLoop ((MARKER_START ++ "\n") ::
      (cfg.blockDomains.map (domainLine cfg.redirectIp) ++ [MARKER_END ++ "\n"])) false
      = [] by simp [removeLoop, h3, hdrop]]
  rw [List.append_nil]

theorem roundtrip_of_clean_wf (cfg : Config) (content : String)
    (hdom : ∀ d ∈ cfg.blockDomains,
      lineContains MARKER_END (domainLine cfg.redirectIp d) = false ∧
      '\n' ∉ (cfg.redirectIp ++ " " ++ d).data)
    (hclwf : ∀ x ∈ remove_blocker_entries (readlines content), wfLine x) :
    writeLines (remove_blocker_entries
        (readlines (writeLines (add_blocker_entries cfg (readlines content)))))
      = writeLines (remove_blocker_entries (readlines content)) ++ "\n" := by
  have hclmf : ∀ x ∈ remove_blocker_entries (readlines content), markerFree x :=
    removeLoop_markerFree _ false
  have hpre_wf : ∀ x ∈ remove_blocker_entries (readlines content) ++ ["\n"], wfLine x := by
    intro x hx
    rcases List.mem_append.mp hx with h | h
    · exact hclwf x h
    · rw [List.mem_singleton.mp h]
      exact wf_newline
  have hpre_mf : ∀ x ∈ remove_blocker_entries (readlines content) ++ ["\n"],
      markerFree x := by
    intro x hx
    rcases List.mem_append.mp hx with h | h
    · exact hclmf x h
    · rw [List.mem_singleton.mp h]
      exact ⟨by decide, by decide⟩
  have hH1 : writeLines (add_blocker_entries cfg (readlines content))
      = writeLines (remove_blocker_entries (readlines content) ++ ["\n"]) ++
        ((MARKER_START ++ "\n") ++
          (writeLines (cfg.blockDomains.map (domainLine cfg.redirectIp)) ++
            (MARKER_END ++ "\n"))) := by
    rw [add_blocker_entries]
    simp [writeLines_append, writeLines, String.append_empty, String.append_assoc]
  rw [hH1, strip_appended_block cfg _ hpre_wf hpre_mf hdom, writeLines_append]
  simp [writeLines, String.append_empty]

theorem roundtrip_hosts (cfg : Config) (content : String)
    (hdom : ∀ d ∈ cfg.blockDomains,
      lineContains MARKER_END (domainLine cfg.redirectIp d) = false ∧
      '\n' ∉ (cfg.redirectIp ++ " " ++ d).data) :
    writeLines (remove_blocker_entries
        (readlines (writeLines (add_blocker_entries cfg (readlines content)))))
      = writeLines (remove_blocker_entries (readlines content)) ++ "\n" := by
  rcases splitAux_shape content.data [] (by simp) with hL | ⟨ws, b, heq, hws, hb⟩
  · exact roundtrip_of_clean_wf cfg content hdom
      (fun x hx => hL x ((removeLoop_sublist _ false).subset hx))
  · have heq2 : readlines content = ws ++ [b] := heq
    have htail : removeLoop [b] (flagAfter ws false) = [] ∨
        removeLoop [b] (flagAfter ws false) = [b] := by
      simp only [removeLoop]
      split_ifs <;> simp
    have hcl : remove_blocker_entries (readlines content)
        = removeLoop ws false ++ removeLoop [b] (flagAfter ws false) := by
      rw [remove_blocker_entries, heq2, removeLoop_append]
    have hcl1wf : ∀ x ∈ removeLoop ws false, wfLine x :=
      fun x hx => hws x ((removeLoop_sublist ws false).subset hx)
    rcases htail with ht | ht
    · refine roundtrip_of_clean_wf cfg content hdom ?_
      intro x hx
      rw [hcl, ht, List.append_nil] at hx
      exact hcl1wf x hx
    · have hclEq : remove_blocker_entries (readlines content)
          = removeLoop ws false ++ [b] := by
        rw [hcl, ht]
      have hbmf : markerFree b := by
        refine removeLoop_markerFree (readlines content) false b ?_
        rw [show removeLoop (readlines content) false
          = removeLoop ws false ++ [b] from hclEq]
        simp
      have hbwf : wfLine (b ++ "\n") := ⟨b.data, by rw [String.data_append], hb⟩
      have hbmf2 : markerFree (b ++ "\n") := markerFree_append_newline b hbmf
      have hcl1mf : ∀ x ∈ removeLoop ws false, markerFree x :=
        removeLoop_markerFree ws false
      have hpre_wf : ∀ x ∈ removeLoop ws false ++ [b ++ "\n"], wfLine x := by
        intro x hx
        rcases List.mem_append.mp hx with h | h
        · exact hcl1wf x h
        · rw [List.mem_singleton.mp h]
          exact hbwf
      have hpre_mf : ∀ x ∈ removeLoop ws false ++ [b ++ "\n"], markerFree x := by
        intro x hx
        rcases List.mem_append.mp hx with h | h
        · exact hcl1mf x h
        · rw [List.mem_singleton.mp h]
          exact hbmf2
      have hH1 : writeLines (add_blocker_entries cfg (readlines content))
          = writeLines (removeLoop ws false ++ [b ++ "\n"]) ++
            ((MARKER_START ++ "\n") ++
              (writeLines (cfg.blockDomains.map (domainLine cfg.redirectIp)) ++
                (MARKER_END ++ "\n"))) := by
        rw [add_blocker_entries, hclEq]
        simp [writeLines_append, writeLines, String.append_empty, String.append_assoc]
      rw [hH1, strip_appended_block cfg _ hpre_wf hpre_mf hdom, hclEq,
        writeLines_append, writeLines_append]
      simp [writeLines, String.append_empty, String.append_assoc]

/-- C8: duration formatting decomposes total elapsed seconds into hours,
minutes, and seconds and renders only from the most significant non-zero
unit down to seconds, never showing a leading zero-valued larger unit; in
particular 45 seconds formats as "45s", 125 seconds as "2m 5s", and 3725
seconds as "1h 2m 5s". -/
theorem format_duration_renders_nonzero_units :
    format_duration 45 = "45s" ∧ format_duration 125 = "2m 5s" ∧
    format_duration 3725 = "1h 2m 5s" ∧
    (∀ t : Int, 0 ≤ t → t < 60 → format_duration t = toString t ++ "s") ∧
    (∀ t : Int, 60 ≤ t → t < 3600 →
      format_duration t = toString (t / 60) ++ "m " ++ toString (t % 60) ++ "s") ∧
    (∀ t : Int, 3600 ≤ t →
      format_duration t = toString (t / 3600) ++ "h " ++ toString (t % 3600 / 60)
        ++ "m " ++ toString (t % 3600 % 60) ++ "s") := by
  refine ⟨by decide, by decide, by decide, ?_, ?_, ?_⟩
  · intro t h0 h
    rw [format_duration, Int.emod_eq_of_lt h0 (by omega),
      Int.ediv_eq_zero_of_lt h0 (by omega), Int.ediv_eq_zero_of_lt h0 (by omega),
      Int.emod_eq_of_lt h0 h]
    simp
  · intro t h1 h2
    have h0 : (0 : Int) ≤ t := by omega
    have hpos : 0 < t / 60 := by
      have := (Int.le_ediv_iff_mul_le (by norm_num : (0:Int) < 60)).mpr
        (by omega : 1 * 60 ≤ t)
      omega
    rw [format_duration, Int.emod_eq_of_lt h0 h2, Int.ediv_eq_zero_of_lt h0 h2]
    simp [hpos]
  · intro t h1
    have hpos : 0 < t / 3600 := by
      have := (Int.le_ediv_iff_mul_le (by norm_num : (0:Int) < 3600)).mpr
        (by omega : 1 * 3600 ≤ t)
      omega
    rw [format_duration]
    simp [hpos]

/-- Witness for C8: the conditional parts applied at concrete inputs. -/
theorem format_duration_renders_nonzero_units_check :
    format_duration 7 = "7s" ∧ format_duration 61 = "1m 1s" ∧
    format_duration 3601 = "1h 0m 1s" := by
  refine ⟨?_, ?_, ?_⟩
  · rw [format_duration_renders_nonzero_units.2.2.2.1 7 (by norm_num) (by norm_num)]
    decide
  · rw [format_duration_renders_nonzero_units.2.2.2.2.1 61 (by norm_num) (by norm_num)]
    decide
  · rw [format_duration_renders_nonzero_units.2.2.2.2.2 3601 (by norm_num)]
    decide


/-- C3 counterexample: the code tests `MARKER_START in line` (substring
containment), not "a line matching the exact start-marker text".  On a line
that contains the marker with surrounding text, the code starts dropping,
while the claim's exact-match scan copies every line unchanged. -/
theorem remove_entries_substring_not_exact :
    remove_blocker_entries ["note # SiteBlocker START here\n", "keep\n"] = [] ∧
    remove_blocker_entries_exactSpec ["note # SiteBlocker START here\n", "keep\n"]
      = ["note # SiteBlocker START here\n", "keep\n"] ∧
    remove_blocker_entries ["note # SiteBlocker START here\n", "keep\n"]
      ≠ remove_blocker_entries_exactSpec ["note # SiteBlocker START here\n", "keep\n"] := by
  refine ⟨by decide, by decide, by decide⟩

/-- C3 amended: the block-removal pass scans linearly with an
"inside managed block" flag keyed on substring containment of the marker
texts; every kept line is an input line copied unchanged in order (a
subsequence), the result contains zero lines containing either marker
regardless of how many blocks existed, and an input with no
marker-containing lines passes through unchanged. -/
theorem remove_entries_scan_properties (lines : List String) :
    (remove_blocker_entries lines).Sublist lines ∧
    (∀ l ∈ remove_blocker_entries lines, markerFree l) ∧
    ((∀ l ∈ lines, markerFree l) → remove_blocker_entries lines = lines) :=
  ⟨removeLoop_sublist lines false, removeLoop_markerFree lines false,
   fun h => removeLoop_of_markerFree lines h⟩

/-- Witness for C3's amended theorem at a concrete marker-free input. -/
theorem remove_entries_scan_properties_check :
    remove_blocker_entries ["127.0.0.1 localhost\n", "0.0.0.0 x\n"]
      = ["127.0.0.1 localhost\n", "0.0.0.0 x\n"] :=
  (remove_entries_scan_properties ["127.0.0.1 localhost\n", "0.0.0.0 x\n"]).2.2
    (by simp only [markerFree]; decide)

/-- C10: a start-marker line with no later end-marker line makes the
removal pass drop that line and everything after it. -/
theorem unterminated_block_drops_rest (xs ys : List String) (s : String)
    (hs : lineContains MARKER_START s = true)
    (hys : ∀ y ∈ ys, lineContains MARKER_END y = false) :
    remove_blocker_entries (xs ++ s :: ys) = remove_blocker_entries xs := by
  rw [remove_blocker_entries, remove_blocker_entries, removeLoop_append]
  have hzs : removeLoop ys true = [] := by
    have h := removeLoop_dropInside ys hys []
    simpa using h
  have h1 : removeLoop (s :: ys) (flagAfter xs false) = [] := by
    simp [removeLoop, hs, hzs]
  rw [h1, List.append_nil]

/-- Witness for C10: an unterminated block after one kept line. -/
theorem unterminated_block_drops_rest_check :
    remove_blocker_entries
      ["127.0.0.1 localhost\n", "# SiteBlocker START\n", "0.0.0.0 a.com\n", "trailing\n"]
      = ["127.0.0.1 localhost\n"] := by
  have h := unterminated_block_drops_rest ["127.0.0.1 localhost\n"]
    ["0.0.0.0 a.com\n", "trailing\n"] "# SiteBlocker START\n" (by decide) (by decide)
  simp only [List.cons_append, List.nil_append] at h
  rw [h]
  decide

/-- C4: calling activate while already active (lock file present) is a
no-op reporting the already-active message with the current elapsed
duration: the hosts content, the lock file and its timestamp are all left
unchanged and no duplicate block is written. -/
theorem activate_when_active_noop (parse : String → Option Int) (now : Int)
    (nowIso : String) (w : World) (hlock : is_active w = true) :
    activate parse now nowIso w =
      .done ((get_active_duration parse now w).2 ++
        ["SiteBlocker is already active (running for "
          ++ format_duration (get_active_duration parse now w).1 ++ ")"]) w :=
  activate_of_active parse now nowIso w hlock

/-- Witness for C4 at a concrete active state. -/
theorem activate_when_active_noop_check :
    activate (fun _ => some 0) 5 "u"
        ⟨⟨some "0.0.0.0", some ["a.com"]⟩, true, "127.0.0.1 localhost\n", some "t"⟩ =
      .done ["SiteBlocker is already active (running for 5s)"]
        ⟨⟨some "0.0.0.0", some ["a.com"]⟩, true, "127.0.0.1 localhost\n", some "t"⟩ := by
  have h := activate_when_active_noop (fun _ => some 0) 5 "u"
    ⟨⟨some "0.0.0.0", some ["a.com"]⟩, true, "127.0.0.1 localhost\n", some "t"⟩ (by decide)
  rw [h]
  decide

/-- C5: calling deactivate while inactive (lock file absent) is a no-op
that reports "not active" and leaves hosts content and lock state
unchanged. -/
theorem deactivate_when_inactive_noop (parse : String → Option Int) (now : Int)
    (w : World) (hlock : w.lock = none) :
    deactivate parse now w = .done ["SiteBlocker is not active"] w :=
  deactivate_of_inactive parse now w hlock

/-- Witness for C5 at a concrete inactive state. -/
theorem deactivate_when_inactive_noop_check :
    deactivate (fun _ => some 0) 5
        ⟨⟨some "0.0.0.0", some ["a.com"]⟩, true, "127.0.0.1 localhost\n", none⟩ =
      .done ["SiteBlocker is not active"]
        ⟨⟨some "0.0.0.0", some ["a.com"]⟩, true, "127.0.0.1 localhost\n", none⟩ := by
  have h := deactivate_when_inactive_noop (fun _ => some 0) 5
    ⟨⟨some "0.0.0.0", some ["a.com"]⟩, true, "127.0.0.1 localhost\n", none⟩ rfl
  rw [h]

/-- C7: when the lock file exists but its content is not a parsable
ISO-8601 timestamp, querying the elapsed duration returns zero together
with a logged parse-failure line; its return type shows it never calls
`sys.exit`, so the process is not aborted. -/
theorem malformed_marker_zero_duration (parse : String → Option Int)
    (now : Int) (w : World) (content : String) (hlock : w.lock = some content)
    (hparse : parse content.trim = none) :
    get_active_duration parse now w = (0, ["Error reading lock file"]) := by
  simp [get_active_duration, hlock, hparse]

/-- Witness for C7 with an unparsable lock-file content. -/
theorem malformed_marker_zero_duration_check :
    get_active_duration (fun _ => none) 9
        ⟨⟨some "0.0.0.0", some ["a.com"]⟩, true, "", some "not a timestamp"⟩ =
      (0, ["Error reading lock file"]) :=
  malformed_marker_zero_duration (fun _ => none) 9
    ⟨⟨some "0.0.0.0", some ["a.com"]⟩, true, "", some "not a timestamp"⟩
    "not a timestamp" rfl rfl

/-- C6: when a session is active and the foreground interactive loop is
interrupted (SIGINT/SIGTERM), the installed handler performs the full
deactivation before the process exits: the managed block is removed from
the hosts content, the lock file is deleted, and the exit status is 0.
The loop body only reads the clock and prints, so the state seen by the
handler is the state at loop entry. -/
theorem interrupt_runs_full_deactivate (parse : String → Option Int)
    (now : Int) (w : World) (hlock : is_active w = true)
    (hperm : w.hostsPerm = true) :
    run_interactive_interrupted parse now w =
      .exit 0 ("\n\nDeactivating..." :: ((get_active_duration parse now w).2 ++
          ["Deactivating SiteBlocker (was active for "
            ++ format_duration (get_active_duration parse now w).1 ++ ")...",
           "✓ SiteBlocker deactivated!"]))
        { w with hosts := writeLines (remove_blocker_entries (readlines w.hosts)),
                 lock := none } :=
  run_int_of_active parse now w hlock hperm

/-- Witness for C6: an interrupt with an active block in the hosts file
leaves only the non-managed content and no lock. -/
theorem interrupt_runs_full_deactivate_check :
    run_interactive_interrupted (fun _ => some 2) 7
        ⟨⟨some "0.0.0.0", some ["a.com"]⟩, true,
          "127.0.0.1 localhost\n\n# SiteBlocker START\n0.0.0.0 a.com\n# SiteBlocker END\n",
          some "t"⟩ =
      .exit 0 ["\n\nDeactivating...",
          "Deactivating SiteBlocker (was active for 5s)...", "✓ SiteBlocker deactivated!"]
        ⟨⟨some "0.0.0.0", some ["a.com"]⟩, true, "127.0.0.1 localhost\n\n", none⟩ := by
  have h := interrupt_runs_full_deactivate (fun _ => some 2) 7
    ⟨⟨some "0.0.0.0", some ["a.com"]⟩, true,
      "127.0.0.1 localhost\n\n# SiteBlocker START\n0.0.0.0 a.com\n# SiteBlocker END\n",
      some "t"⟩ (by decide) rfl
  rw [h]
  decide

/-- C1: for a configuration with redirect address `R` and domain list `D`
and any prior hosts content, activating from the inactive state appends to
the markers-stripped prior content exactly one managed block: the blank
separator, the start marker line, the `D.length` lines `R ++ " " ++ d` in
the configured order, and the end marker line; the stripped prefix contains
no marker text, so the block is unique.  The concrete scenario of the claim
is the final conjunct. -/
theorem activate_writes_single_block (parse : String → Option Int) (now : Int)
    (nowIso : String) (w : World) (R : String) (D : List String)
    (hcfg : w.cfg = ⟨some R, some D⟩) (hlock : w.lock = none)
    (hperm : w.hostsPerm = true) :
    activate parse now nowIso w =
      .done ["Activating SiteBlocker...", "✓ SiteBlocker activated!",
          "Blocking " ++ toString D.length ++ " domains",
          "\nPress Ctrl+C to deactivate"]
        { w with lock := some nowIso,
                 hosts := writeLines (remove_blocker_entries (readlines w.hosts))
                   ++ "\n" ++ MARKER_START ++ "\n"
                   ++ writeLines (D.map (domainLine R)) ++ MARKER_END ++ "\n" } ∧
    (∀ l ∈ remove_blocker_entries (readlines w.hosts), markerFree l) ∧
    writeLines (add_blocker_entries ⟨some "0.0.0.0", some ["a.com", "b.com"]⟩ (readlines ""))
      = "\n# SiteBlocker START\n0.0.0.0 a.com\n0.0.0.0 b.com\n# SiteBlocker END\n" := by
  refine ⟨?_, removeLoop_markerFree _ false, by decide⟩
  rw [activate_of_inactive parse now nowIso w hlock hperm, hcfg]
  simp only [add_blocker_entries, Config.blockDomains, Config.redirectIp,
    Option.getD_some, writeLines_append]
  simp [writeLines, String.append_empty, String.append_assoc]

/-- Witness for C1 in the claim's own scenario. -/
theorem activate_writes_single_block_check :
    activate (fun _ => some 0) 0 "t"
        ⟨⟨some "0.0.0.0", some ["a.com", "b.com"]⟩, true, "", none⟩ =
      .done ["Activating SiteBlocker...", "✓ SiteBlocker activated!",
          "Blocking 2 domains", "\nPress Ctrl+C to deactivate"]
        ⟨⟨some "0.0.0.0", some ["a.com", "b.com"]⟩, true,
          "\n# SiteBlocker START\n0.0.0.0 a.com\n0.0.0.0 b.com\n# SiteBlocker END\n",
          some "t"⟩ := by
  have h := (activate_writes_single_block (fun _ => some 0) 0 "t"
    ⟨⟨some "0.0.0.0", some ["a.com", "b.com"]⟩, true, "", none⟩
    "0.0.0.0" ["a.com", "b.com"] rfl rfl rfl).1
  rw [h]
  decide

/-- C2 counterexample: in the claim's own scenario (config redirecting
a.com and b.com to 0.0.0.0, empty initial resource), activate followed by
deactivate does NOT return the resource to empty: the blank separator line
written by activate survives, because on re-reading the file it is a line
of its own that contains no marker text.  The lock file is removed. -/
theorem activate_deactivate_leaves_blank_line :
    activateThenDeactivate (fun _ => some 0) 0 "t"
        ⟨⟨some "0.0.0.0", some ["a.com", "b.com"]⟩, true, "", none⟩ =
      .done ["Activating SiteBlocker...", "✓ SiteBlocker activated!",
          "Blocking 2 domains", "\nPress Ctrl+C to deactivate",
          "Deactivating SiteBlocker (was active for 0s)...", "✓ SiteBlocker deactivated!"]
        ⟨⟨some "0.0.0.0", some ["a.com", "b.com"]⟩, true, "\n", none⟩ ∧
    ("\n" : String) ≠ "" := by
  exact ⟨by decide, by decide⟩

/-- C2 amended: starting inactive from EVERY pre-existing prior content
(newline-terminated or not, corrupted or not), provided each configured
domain's generated line contains no interior newline and does not contain
the end-marker text, activate followed by deactivate yields the prior
content with all managed-block lines removed PLUS one leftover blank
separator line, and removes the lock file; in the claim's scenario the
resource becomes a single newline rather than empty. -/
theorem activate_deactivate_removes_block_keeps_separator
    (parse : String → Option Int) (now : Int) (nowIso : String) (w : World)
    (R : String) (D : List String)
    (hcfg : w.cfg = ⟨some R, some D⟩) (hlock : w.lock = none)
    (hperm : w.hostsPerm = true)
    (hdom : ∀ d ∈ D, lineContains MARKER_END (domainLine R d) = false ∧
      '\n' ∉ (R ++ " " ++ d).data) :
    ∃ m, activateThenDeactivate parse now nowIso w =
      .done m { w with hosts := writeLines (remove_blocker_entries (readlines w.hosts)) ++ "\n",
                       lock := none } := by
  have hdom2 : ∀ d ∈ w.cfg.blockDomains,
      lineContains MARKER_END (domainLine w.cfg.redirectIp d) = false ∧
      '\n' ∉ (w.cfg.redirectIp ++ " " ++ d).data := by
    rw [hcfg]
    simpa [Config.blockDomains, Config.redirectIp] using hdom
  have hrt := roundtrip_hosts w.cfg w.hosts hdom2
  have hdeact := deactivate_of_active parse now
    { w with lock := some nowIso,
             hosts := writeLines (add_blocker_entries w.cfg (readlines w.hosts)) }
    (by simp [is_active]) (by simp [hperm])
  apply Exists.intro
  unfold activateThenDeactivate
  rw [activate_of_inactive parse now nowIso w hlock hperm]
  dsimp only
  rw [hdeact]
  dsimp only
  rw [hrt]

/-- Witness for C2's amended theorem from the non-newline-terminated prior
content "a\nkeep": the appended separator terminates the bare last line, so
the result is "a\nkeep\n", with no lock left. -/
theorem activate_deactivate_removes_block_keeps_separator_check :
    ∃ m, activateThenDeactivate (fun _ => some 0) 0 "t"
        ⟨⟨some "0.0.0.0", some ["a.com"]⟩, true, "a\nkeep", none⟩ =
      .done m ⟨⟨some "0.0.0.0", some ["a.com"]⟩, true, "a\nkeep\n", none⟩ := by
  obtain ⟨m, hm⟩ := activate_deactivate_removes_block_keeps_separator
    (fun _ => some 0) 0 "t" ⟨⟨some "0.0.0.0", some ["a.com"]⟩, true, "a\nkeep", none⟩
    "0.0.0.0" ["a.com"] rfl rfl rfl (by decide)
  refine ⟨m, ?_⟩
  rw [hm]
  have hw : ({ (⟨⟨some "0.0.0.0", some ["a.com"]⟩, true, "a\nkeep", none⟩ : World) with
      hosts := writeLines (remove_blocker_entries (readlines "a\nkeep")) ++ "\n",
      lock := none } : World)
      = ⟨⟨some "0.0.0.0", some ["a.com"]⟩, true, "a\nkeep\n", none⟩ := by decide
  rw [hw]

theorem mainRun_activate (parse : String → Option Int) (now : Int)
    (nowIso : String) (argv : List String) (w : World)
    (h2 : 2 ≤ argv.length) (hcmd : strToLower (argv.getD 1 "") = "activate") :
    mainRun parse now nowIso true argv w =
      match activate parse now nowIso w with
      | .exit c m w1 => (c, m, w1)
      | .done m w1 =>
        match run_interactive_interrupted parse now w1 with
        | .exit c m2 w2 => (c, m ++ m2, w2)
        | .done m2 w2 => (0, m ++ m2, w2) := by
  have hcmd2 := hcmd
  simp only [List.getD, List.get?_eq_getElem?] at hcmd2
  simp [mainRun, Nat.not_lt.mpr h2, hcmd2]

theorem mainRun_deactivate (parse : String → Option Int) (now : Int)
    (nowIso : String) (argv : List String) (w : World)
    (h2 : 2 ≤ argv.length) (hcmd : strToLower (argv.getD 1 "") = "deactivate") :
    mainRun parse now nowIso true argv w =
      match deactivate parse now w with
      | .exit c m w1 => (c, m, w1)
      | .done m w1 => (0, m, w1) := by
  have hcmd2 := hcmd
  simp only [List.getD, List.get?_eq_getElem?] at hcmd2
  simp [mainRun, Nat.not_lt.mpr h2, hcmd2]

theorem mainRun_status (parse : String → Option Int) (now : Int)
    (nowIso : String) (argv : List String) (w : World)
    (h2 : 2 ≤ argv.length) (hcmd : strToLower (argv.getD 1 "") = "status") :
    mainRun parse now nowIso true argv w = (0, statusReport parse now w, w) := by
  have hcmd2 := hcmd
  simp only [List.getD, List.get?_eq_getElem?] at hcmd2
  simp [mainRun, Nat.not_lt.mpr h2, hcmd2]

theorem mainRun_run (parse : String → Option Int) (now : Int)
    (nowIso : String) (argv : List String) (w : World)
    (h2 : 2 ≤ argv.length) (hcmd : strToLower (argv.getD 1 "") = "run") :
    mainRun parse now nowIso true argv w =
      match run_interactive_interrupted parse now w with
      | .exit c m w1 => (c, m, w1)
      | .done m w1 => (0, m, w1) := by
  have hcmd2 := hcmd
  simp only [List.getD, List.get?_eq_getElem?] at hcmd2
  simp [mainRun, Nat.not_lt.mpr h2, hcmd2]

/-- C9 counterexample: for an unknown command the process prints only the
"Unknown command" line and exits 1 — the usage help is NOT printed first
(it is printed only when the command is absent). -/
theorem unknown_command_prints_no_usage :
    mainRun (fun _ => none) 0 "t" true ["siteblocker", "bogus"]
        ⟨⟨some "0.0.0.0", some ["a.com"]⟩, true, "", none⟩ =
      (1, ["Unknown command: bogus"],
        ⟨⟨some "0.0.0.0", some ["a.com"]⟩, true, "", none⟩) ∧
    "Usage: siteblocker <command>" ∉ (["Unknown command: bogus"] : List String) :=
  ⟨by decide, by decide⟩

/-- C9 amended: the process exits 1 when the configuration file is missing
(checked before anything else), exits 1 printing the usage help when no
command is given, exits 1 printing only an "Unknown command" line (not the
usage help) for an unknown command, exits 0 for every known command when
the hosts file is accessible, and exits 1 for the activate command when the
privilege to read or write the hosts file is missing. -/
theorem exit_code_characterization :
    (∀ (parse : String → Option Int) (now : Int) (nowIso : String)
      (argv : List String) (w : World),
      (mainRun parse now nowIso false argv w).1 = 1) ∧
    (∀ (parse : String → Option Int) (now : Int) (nowIso : String)
      (argv : List String) (w : World), argv.length < 2 →
      mainRun parse now nowIso true argv w = (1, usageMsgs, w)) ∧
    (∀ (parse : String → Option Int) (now : Int) (nowIso : String)
      (argv : List String) (w : World), 2 ≤ argv.length →
      strToLower (argv.getD 1 "") ∉
        (["activate", "deactivate", "status", "run"] : List String) →
      mainRun parse now nowIso true argv w
        = (1, ["Unknown command: " ++ strToLower (argv.getD 1 "")], w)) ∧
    (∀ (parse : String → Option Int) (now : Int) (nowIso : String)
      (argv : List String) (w : World), 2 ≤ argv.length →
      strToLower (argv.getD 1 "") ∈
        (["activate", "deactivate", "status", "run"] : List String) →
      w.hostsPerm = true →
      (mainRun parse now nowIso true argv w).1 = 0) ∧
    (∀ (parse : String → Option Int) (now : Int) (nowIso : String)
      (argv : List String) (w : World), 2 ≤ argv.length →
      strToLower (argv.getD 1 "") = "activate" → w.hostsPerm = false →
      (mainRun parse now nowIso true argv w).1 = 1) := by
  refine ⟨?_, ?_, ?_, ?_, ?_⟩
  · intro parse now nowIso argv w
    simp [mainRun]
  · intro parse now nowIso argv w h
    simp [mainRun, h]
  · intro parse now nowIso argv w h2 hcmd
    simp only [List.mem_cons, List.not_mem_nil, or_false, not_or] at hcmd
    obtain ⟨n1, n2, n3, n4⟩ := hcmd
    simp only [List.getD, List.get?_eq_getElem?] at n1 n2 n3 n4
    simp [mainRun, Nat.not_lt.mpr h2, n1, n2, n3, n4, List.getD,
      List.get?_eq_getElem?]
  · intro parse now nowIso argv w h2 hcmd hperm
    simp only [List.mem_cons, List.not_mem_nil, or_false] at hcmd
    rcases hcmd with h | h | h | h
    · rw [mainRun_activate parse now nowIso argv w h2 h]
      cases hlk : w.lock with
      | none =>
        rw [activate_of_inactive parse now nowIso w hlk hperm]
        dsimp only
        rw [run_int_of_active parse now
          { w with lock := some nowIso,
                   hosts := writeLines (add_blocker_entries w.cfg (readlines w.hosts)) }
          (by simp [is_active]) (by simp [hperm])]
      | some s =>
        rw [activate_of_active parse now nowIso w (by simp [is_active, hlk])]
        dsimp only
        rw [run_int_of_active parse now w (by simp [is_active, hlk]) hperm]
    · rw [mainRun_deactivate parse now nowIso argv w h2 h]
      cases hlk : w.lock with
      | none => rw [deactivate_of_inactive parse now w hlk]
      | some s => rw [deactivate_of_active parse now w (by simp [is_active, hlk]) hperm]
    · rw [mainRun_status parse now nowIso argv w h2 h]
    · rw [mainRun_run parse now nowIso argv w h2 h]
      cases hlk : w.lock with
      | none => rw [run_int_of_inactive parse now w hlk]
      | some s => rw [run_int_of_active parse now w (by simp [is_active, hlk]) hperm]
  · intro parse now nowIso argv w h2 hcmd hperm
    rw [mainRun_activate parse now nowIso argv w h2 hcmd]
    cases hlk : w.lock with
    | none => rw [activate_of_noperm parse now nowIso w hlk hperm]
    | some s =>
      rw [activate_of_active parse now nowIso w (by simp [is_active, hlk])]
      dsimp only
      rw [run_int_of_active_noperm parse now w (by simp [is_active, hlk]) hperm]

/-- Witness for C9's amended theorem: absent command, known command with
privilege, unknown-free success, and activate without privilege. -/
theorem exit_code_characterization_check :
    mainRun (fun _ => some 0) 0 "t" true ["siteblocker"]
        ⟨⟨some "0.0.0.0", some ["a.com"]⟩, true, "", none⟩
      = (1, usageMsgs, ⟨⟨some "0.0.0.0", some ["a.com"]⟩, true, "", none⟩) ∧
    (mainRun (fun _ => some 0) 0 "t" true ["siteblocker", "status"]
        ⟨⟨some "0.0.0.0", some ["a.com"]⟩, true, "", none⟩).1 = 0 ∧
    (mainRun (fun _ => some 0) 0 "t" true ["siteblocker", "activate"]
        ⟨⟨some "0.0.0.0", some ["a.com"]⟩, false, "", none⟩).1 = 1 := by
  refine ⟨?_, ?_, ?_⟩
  · exact exit_code_characterization.2.1 (fun _ => some 0) 0 "t" ["siteblocker"]
      ⟨⟨some "0.0.0.0", some ["a.com"]⟩, true, "", none⟩ (by decide)
  · exact exit_code_characterization.2.2.2.1 (fun _ => some 0) 0 "t"
      ["siteblocker", "status"] ⟨⟨some "0.0.0.0", some ["a.com"]⟩, true, "", none⟩
      (by decide) (by decide) rfl
  · exact exit_code_characterization.2.2.2.2 (fun _ => some 0) 0 "t"
      ["siteblocker", "activate"] ⟨⟨some "0.0.0.0", some ["a.com"]⟩, false, "", none⟩
      (by decide) (by decide) rfl
